import Mathlib

/-!
Shallow embedding of the vogDocker query engine (src/vogdb/functionality.py,
src/vogdb/main.py) together with proofs about its search, validation and
fetch behaviour.

Modelling conventions:
* SQL tables become lists of records (`DB`); `JOIN Protein_profile ->
  Species_profile` joins on the `TaxonID` foreign key set up by the loader
  (src/vogdb/loader/support.py).
* Python `Optional[...]` parameters become `Option`; `Set[str]`/`Set[int]`
  query parameters become lists (FastAPI has already removed duplicates;
  iteration order of the Python set is represented by the list order).
* Python exceptions become `Except` errors.  Both `ValueError` branches of
  `check_validity` are the spec's `InvalidRange` kind (spec section 7:
  "InvalidRange (min>max or negative bound)"); the separate "has to be > 0"
  loop is `nonPositive`.
* Each `db.query(...).all()` round trip against the store is recorded as a
  `QueryEvent`, in execution order, so that "no store query has run" is
  expressible.
* SQL `LIKE '%x%'` is substring containment (`likeB`); collation case
  folding is not modelled (no claim depends on it).  SQL `IN` is exact
  membership.
* The ete3 taxonomy (`.taxa.ncbi_taxa`, not under src/) is modelled from the
  spec as an abstract map `desc : Int -> Option (List Int)` giving the
  descendant list of a taxon, `none` meaning the id is unknown to the
  hierarchy (ete3 raises `ValueError` there).  `get_descendant_taxa id` plus
  the trailing `append(id)` of the source becomes `ds ++ [t]`.
* The gzip blob directory (spec section 6 blob capability, `os`/`gzip`
  calls in the source) is modelled from the spec as an abstract map
  `store : String -> Option String` keyed by the uppercased id; `none`
  models `FileNotFoundError`.
-/

/-- Row of the `Species_profile` table. -/
structure Species_profile where
  taxon_id : Int
  species_name : String
  phage : Bool
  source : String
  version : Int
deriving DecidableEq, Repr

/-- Row of the `Protein_profile` table. -/
structure Protein_profile where
  id : String
  vog_id : String
  taxon_id : Int
deriving DecidableEq, Repr

/-- Row of the `VOG_profile` table. -/
structure VOG_profile where
  id : String
  protein_count : Int
  species_count : Int
  function : String
  consensus_function : String
  genomes_in_group : Int
  genomes_total_in_LCA : Int
  ancestors : String
  h_stringency : Bool
  m_stringency : Bool
  l_stringency : Bool
  virus_specific : Bool
  phages_nonphages : String
  proteins : String
deriving DecidableEq, Repr

/-- Row of the `AA_seq` table. -/
structure AA_seq where
  id : String
  seq : String
deriving DecidableEq, Repr

/-- The relational store the engine reads from. -/
structure DB where
  vogs : List VOG_profile
  species : List Species_profile
  proteins : List Protein_profile
  aa_seqs : List AA_seq

/-- Query parameters of `get_vogs` (src/vogdb/functionality.py lines 86-110),
in source order. -/
structure VogParams where
  id : Option (List String)
  pmin : Option Int
  pmax : Option Int
  smax : Option Int
  smin : Option Int
  function : Option (List String)
  consensus_function : Option (List String)
  mingLCA : Option Int
  maxgLCA : Option Int
  mingGLCA : Option Int
  maxgGLCA : Option Int
  ancestors : Option (List String)
  h_stringency : Option Bool
  m_stringency : Option Bool
  l_stringency : Option Bool
  virus_specific : Option Bool
  phages_nonphages : Option String
  proteins : Option (List String)
  species : Option (List String)
  tax_id : Option (List Int)
  sort : Option String
  union : Option Bool
deriving Repr

/-- Parameters with every optional criterion absent. -/
def emptyParams : VogParams :=
  ⟨none, none, none, none, none, none, none, none, none, none, none, none,
   none, none, none, none, none, none, none, none, none, none⟩

/-- Error kinds raised by `get_vogs`, at the granularity of the spec's error
taxonomy (section 7).  Both messages of `check_validity` are `invalidRange`;
the "has to be > 0" loop is `nonPositive`. -/
inductive VogError where
  | invalidRange
  | nonPositive (n : Int)
  | missingUnionTarget
  | insufficientUnionCardinality
  | invalidTaxon (t : Int)
deriving DecidableEq, Repr

/-- One round trip against the relational store (`....all()` in the source). -/
inductive QueryEvent where
  | speciesJoin (names : List String)
  | taxonJoin (ids : List Int)
  | finalQuery
deriving DecidableEq, Repr

/-- Whether `pat` occurs contiguously at the start of `s`. -/
def charsStartWith : List Char → List Char → Bool
  | [], _ => true
  | _ :: _, [] => false
  | a :: as, b :: bs => a == b && charsStartWith as bs

/-- Whether `pat` occurs contiguously anywhere in `s`. -/
def charsContain (pat : List Char) : List Char → Bool
  | [] => charsStartWith pat []
  | c :: rest => charsStartWith pat (c :: rest) || charsContain pat rest

/-- SQL `LIKE '%pat%'`: substring containment. -/
def likeB (pat s : String) : Bool :=
  charsContain pat.toList s.toList

/-- Conjunction of `LIKE` filters, one per set element (the source appends
one filter per element of a multi-valued text criterion). -/
def likesAll (pats : List String) (s : String) : Bool :=
  pats.all (fun p => likeB p s)

/-- The `check_validity` helper (functionality.py lines 121-129): with both
bounds present, `max < min` and negative bounds raise; with at most one bound
present it accepts. -/
def check_validity : Option Int × Option Int → Option VogError
  | (some mn, some mx) =>
    if mx < mn then some VogError.invalidRange
    else if mn < 0 ∨ mx < 0 then some VogError.invalidRange
    else none
  | _ => none

/-- First error of a list of optional errors (Python raises at the first
violating check). -/
def firstErr : List (Option VogError) → Option VogError
  | [] => none
  | some e :: _ => some e
  | none :: rest => firstErr rest

/-- The `number < 1` loop (functionality.py lines 134-137), over the bounds
in source order. -/
def positivityCheck : List (Option Int) → Option VogError
  | [] => none
  | some n :: rest =>
    if n < 1 then some (VogError.nonPositive n) else positivityCheck rest
  | none :: rest => positivityCheck rest

/-- Range validation of `get_vogs`: the four `check_validity` calls in source
order (line 131), then the positivity loop (line 134). -/
def rangeValidate (p : VogParams) : Option VogError :=
  match firstErr [check_validity (p.smin, p.smax), check_validity (p.pmin, p.pmax),
      check_validity (p.mingLCA, p.maxgLCA), check_validity (p.mingGLCA, p.maxgGLCA)] with
  | some e => some e
  | none =>
    positivityCheck [p.smin, p.smax, p.pmin, p.pmax,
      p.mingLCA, p.maxgLCA, p.mingGLCA, p.maxgGLCA]

/-- Union-mode validation (functionality.py lines 141-150): only runs when
`union is True`; checks presence of a target, then the cardinalities. -/
def unionValidate (p : VogParams) : Option VogError :=
  match p.union, p.species, p.tax_id with
  | some true, none, none => some VogError.missingUnionTarget
  | some true, some s, t =>
    if s.length < 2 then some VogError.insufficientUnionCardinality
    else
      match t with
      | some l =>
        if l.length < 2 then some VogError.insufficientUnionCardinality else none
      | none => none
  | some true, none, some l =>
    if l.length < 2 then some VogError.insufficientUnionCardinality else none
  | _, _, _ => none

/-- All validation of `get_vogs` that precedes the argument loop, in source
order: ranges, positivity, then union preconditions. -/
def vogValidate (p : VogParams) : Option VogError :=
  match rangeValidate p with
  | some e => some e
  | none => unionValidate p

/-- The `JOIN Protein_profile -> Species_profile` on the `TaxonID` foreign
key. -/
def joinRows (db : DB) : List (Protein_profile × Species_profile) :=
  db.proteins.flatMap (fun pr =>
    (db.species.filter (fun s => decide (s.taxon_id = pr.taxon_id))).map
      (fun s => (pr, s)))

/-- Joined rows whose species name is `IN` the requested name set
(functionality.py line 189 and 195). -/
def speciesMatchRows (db : DB) (names : List String) :
    List (Protein_profile × Species_profile) :=
  (joinRows db).filter (fun r => decide (r.2.species_name ∈ names))

/-- The union-mode species query (lines 194-196): group the matching rows by
VOG id and return every group key. -/
def speciesUnionVogIds (db : DB) (names : List String) : List String :=
  ((speciesMatchRows db names).map (fun r => r.1.vog_id)).dedup

/-- The intersection-mode species query (lines 188-191): same grouping, but
`HAVING COUNT(species_name) = len(species)` keeps only groups whose number of
matching rows equals the cardinality of the name set. -/
def speciesInterVogIds (db : DB) (names : List String) : List String :=
  (speciesUnionVogIds db names).filter
    (fun vid =>
      (speciesMatchRows db names).countP (fun r => decide (r.1.vog_id = vid))
        == names.length)

/-- Joined rows whose species taxon id is `IN` the given id list
(functionality.py lines 245 and 260). -/
def taxMatchRows (db : DB) (ids : List Int) :
    List (Protein_profile × Species_profile) :=
  (joinRows db).filter (fun r => decide (r.2.taxon_id ∈ ids))

/-- The per-taxon membership query: group matching rows by VOG id and return
every group key (no `HAVING`). -/
def taxVogIds (db : DB) (ids : List Int) : List String :=
  ((taxMatchRows db ids).map (fun r => r.1.vog_id)).dedup

/-- Union-mode expansion loop (lines 239-242): extend the id list with each
taxon's descendants and the taxon itself; an unknown taxon aborts with that
id. -/
def expandAll (desc : Int → Option (List Int)) :
    List Int → List Int → Except Int (List Int)
  | [], acc => Except.ok acc
  | t :: ts, acc =>
    match desc t with
    | none => Except.error t
    | some ds => expandAll desc ts (acc ++ ds ++ [t])

/-- Intersection-mode per-taxon loop (lines 253-265): for each taxon id,
expand it, run one membership join for its expansion, and append one
`IN`-filter; an unknown taxon aborts after the joins already issued. -/
def taxInterLoop (db : DB) (desc : Int → Option (List Int)) :
    List Int → List QueryEvent → List (List String) →
    List QueryEvent × Except Int (List (List String))
  | [], evs, fs => (evs, Except.ok fs)
  | t :: ts, evs, fs =>
    match desc t with
    | none => (evs, Except.error t)
    | some ds =>
      taxInterLoop db desc ts (evs ++ [QueryEvent.taxonJoin (ds ++ [t])])
        (fs ++ [taxVogIds db (ds ++ [t])])

/-- Returns `some true` exactly when the Python truthiness test `if union:`
succeeds. -/
def unionTruthy : Option Bool → Bool
  | some true => true
  | _ => false

/-- The `tax_id` branch of the argument loop (lines 233-267): resolves the
taxon criterion into membership filters, recording the joins it runs. -/
def taxResolve (db : DB) (desc : Int → Option (List Int)) (u : Option Bool)
    (taxIds : Option (List Int)) :
    List QueryEvent × Except Int (List (List String)) :=
  match taxIds with
  | none => ([], Except.ok [])
  | some tIds =>
    if unionTruthy u then
      match expandAll desc tIds [] with
      | Except.error t => ([], Except.error t)
      | Except.ok idList =>
        ([QueryEvent.taxonJoin idList], Except.ok [taxVogIds db idList])
    else taxInterLoop db desc tIds [] []

/-- The `species` branch of the argument loop (lines 185-198): the
intersection query runs only under `union is False`; any other value of the
flag (including absent) takes the union query. -/
def speciesResolve (db : DB) (p : VogParams) : Option (List String) :=
  match p.species with
  | none => none
  | some names =>
    match p.union with
    | some false => some (speciesInterVogIds db names)
    | _ => some (speciesUnionVogIds db names)

/-- Direct-column filters of the argument loop (id, ranges, text criteria and
boolean flags), conjoined; a `none` parameter contributes no filter. -/
def scalarFilters (p : VogParams) (v : VOG_profile) : Bool :=
  (match p.id with
   | none => true
   | some ids => decide (v.id ∈ ids)) &&
  (match p.pmin with
   | none => true
   | some n => decide (v.protein_count > n - 1)) &&
  (match p.pmax with
   | none => true
   | some n => decide (v.protein_count < n + 1)) &&
  (match p.smax with
   | none => true
   | some n => decide (v.species_count < n + 1)) &&
  (match p.smin with
   | none => true
   | some n => decide (v.species_count > n - 1)) &&
  (match p.function with
   | none => true
   | some fs => likesAll fs v.function) &&
  (match p.consensus_function with
   | none => true
   | some fs => likesAll fs v.consensus_function) &&
  (match p.mingLCA with
   | none => true
   | some n => decide (v.genomes_total_in_LCA > n - 1)) &&
  (match p.maxgLCA with
   | none => true
   | some n => decide (v.genomes_total_in_LCA < n + 1)) &&
  (match p.mingGLCA with
   | none => true
   | some n => decide (v.genomes_in_group > n - 1)) &&
  (match p.maxgGLCA with
   | none => true
   | some n => decide (v.genomes_in_group < n + 1)) &&
  (match p.ancestors with
   | none => true
   | some fs => likesAll fs v.ancestors) &&
  (match p.h_stringency with
   | none => true
   | some b => v.h_stringency == b) &&
  (match p.m_stringency with
   | none => true
   | some b => v.m_stringency == b) &&
  (match p.l_stringency with
   | none => true
   | some b => v.l_stringency == b) &&
  (match p.virus_specific with
   | none => true
   | some b => v.virus_specific == b) &&
  (match p.phages_nonphages with
   | none => true
   | some s => likeB s v.phages_nonphages) &&
  (match p.proteins with
   | none => true
   | some fs => likesAll fs v.proteins)

/-- The `get_vogs` search (functionality.py lines 86-271): validate, resolve
the species and taxon membership criteria (in argument-loop order), then run
the final conjunctive query over `VOG_profile` and return the matching ids.
The first component records the store round trips in execution order. -/
def get_vogs (db : DB) (desc : Int → Option (List Int)) (p : VogParams) :
    List QueryEvent × Except VogError (List String) :=
  match vogValidate p with
  | some e => ([], Except.error e)
  | none =>
    let spEvs : List QueryEvent :=
      match p.species with
      | none => []
      | some names => [QueryEvent.speciesJoin names]
    let spSet : Option (List String) := speciesResolve db p
    match taxResolve db desc p.union p.tax_id with
    | (tEvs, Except.error t) =>
      (spEvs ++ tEvs, Except.error (VogError.invalidTaxon t))
    | (tEvs, Except.ok fs) =>
      (spEvs ++ tEvs ++ [QueryEvent.finalQuery],
       Except.ok ((db.vogs.filter (fun v =>
         scalarFilters p v &&
         (match spSet with
          | none => true
          | some ids => decide (v.id ∈ ids)) &&
         fs.all (fun g => decide (v.id ∈ g)))).map (fun v => v.id)))

/-- Error kinds of the fetch operations. -/
inductive FetchError where
  | noIds
  | invalidId (uid : String)
  | notFound
deriving DecidableEq, Repr

/-- Python `str.upper()`, character by character (the ids are ASCII). -/
def upperStr (s : String) : String :=
  String.mk (s.toList.map Char.toUpper)

/-- The `_hmm_content`/`_msa_content` per-id lookup: read the gzipped blob
keyed by the uppercased id; a missing file raises `Invalid Id`. -/
def blobContent (store : String → Option String) (uid : String) :
    Except FetchError String :=
  match store (upperStr uid) with
  | some c => Except.ok c
  | none => Except.error (FetchError.invalidId uid)

/-- A Python list comprehension whose element expression may raise: the first
exception aborts the whole comprehension. -/
def batchContents (f : String → Except FetchError String) :
    List String → Except FetchError (List String)
  | [] => Except.ok []
  | u :: us =>
    match f u with
    | Except.error e => Except.error e
    | Except.ok c =>
      match batchContents f us with
      | Except.error e => Except.error e
      | Except.ok cs => Except.ok (c :: cs)

/-- `find_vogs_hmm_by_uid` (functionality.py lines 347-354): reject an absent
or empty id list, then resolve each id of `set(uid)` in turn. -/
def find_vogs_hmm_by_uid (store : String → Option String)
    (uid : Option (List String)) : Except FetchError (List String) :=
  match uid with
  | none => Except.error FetchError.noIds
  | some l =>
    if l.isEmpty then Except.error FetchError.noIds
    else batchContents (blobContent store) l.dedup

/-- `find_vogs_msa_by_uid` (functionality.py lines 365-372): identical shape,
reading from the MSA directory. -/
def find_vogs_msa_by_uid (store : String → Option String)
    (uid : Option (List String)) : Except FetchError (List String) :=
  match uid with
  | none => Except.error FetchError.noIds
  | some l =>
    if l.isEmpty then Except.error FetchError.noIds
    else batchContents (blobContent store) l.dedup

/-- `find_protein_faa_by_id` (functionality.py lines 383-393): query the
`AA_seq` table for the rows whose id is in the requested list. -/
def find_protein_faa_by_id (db : DB) (id : Option (List String)) :
    Except FetchError (List AA_seq) :=
  match id with
  | none => Except.error FetchError.noIds
  | some l =>
    if l.isEmpty then Except.error FetchError.noIds
    else Except.ok (db.aa_seqs.filter (fun r => decide (r.id ∈ l)))

/-- `find_protein_fna_by_id` (functionality.py lines 396-406): textually the
same query against the `AA_seq` table. -/
def find_protein_fna_by_id (db : DB) (id : Option (List String)) :
    Except FetchError (List AA_seq) :=
  match id with
  | none => Except.error FetchError.noIds
  | some l =>
    if l.isEmpty then Except.error FetchError.noIds
    else Except.ok (db.aa_seqs.filter (fun r => decide (r.id ∈ l)))

/-- The `/vfetch/protein/faa` endpoint (main.py lines 276-304): delegate to
`find_protein_faa_by_id` and turn an empty result into a 404. -/
def fetch_protein_faa (db : DB) (id : Option (List String)) :
    Except FetchError (List AA_seq) :=
  match find_protein_faa_by_id db id with
  | Except.error e => Except.error e
  | Except.ok rs =>
    if rs.isEmpty then Except.error FetchError.notFound else Except.ok rs

/-- The `/vfetch/protein/fna` endpoint (main.py lines 307-335): it invokes
`find_protein_faa_by_id` as well. -/
def fetch_protein_fna (db : DB) (id : Option (List String)) :
    Except FetchError (List AA_seq) :=
  match find_protein_faa_by_id db id with
  | Except.error e => Except.error e
  | Except.ok rs =>
    if rs.isEmpty then Except.error FetchError.notFound else Except.ok rs

/-- Formalisation of the spec's INTERSECTION sentence for the species
criterion (spec section 4.3): a VOG qualifies only if, for every distinct
item of the criterion set, at least one of its proteins belongs to a species
whose name matches that item by substring. -/
def specIntersectionQualifies (db : DB) (names : List String) (vid : String) :
    Prop :=
  ∀ item ∈ names, ∃ pr ∈ db.proteins, pr.vog_id = vid ∧
    ∃ s ∈ db.species, s.taxon_id = pr.taxon_id ∧ likeB item s.species_name = true

instance (db : DB) (names : List String) (vid : String) :
    Decidable (specIntersectionQualifies db names vid) := by
  unfold specIntersectionQualifies
  infer_instance

/-! ### Concrete store states, parameter records and capability maps used by
counterexamples and witnesses -/

/-- Taxonomy map with no known taxa. -/
def descNone : Int → Option (List Int) := fun _ => none

/-- Empty store. -/
def db0 : DB := ⟨[], [], [], []⟩

/-- A `VOG_profile` row with the given id and counts. -/
def vogRow (i : String) (pc sc : Int) : VOG_profile :=
  ⟨i, pc, sc, "Xr", "unknown function", 1, 1, "Viruses", true, false, false,
   true, "np_only", "1.p1"⟩

/-- Store with one VOG whose single protein belongs to species "A"; a second
species "B" has no protein of that VOG. -/
def dbC1 : DB :=
  { vogs := [vogRow "VOG1" 1 1],
    species := [⟨1, "A", false, "NCBI Refseq", 201⟩, ⟨2, "B", false, "NCBI Refseq", 201⟩],
    proteins := [⟨"1.p1", "VOG1", 1⟩],
    aa_seqs := [] }

/-- Search for species {"A", "B"} with the union flag absent. -/
def pC1 : VogParams := { emptyParams with species := some ["A", "B"] }

/-- Store with one VOG having two proteins, both of species "A". -/
def dbC2 : DB :=
  { vogs := [vogRow "VOG1" 2 1],
    species := [⟨1, "A", false, "NCBI Refseq", 201⟩, ⟨2, "B", false, "NCBI Refseq", 201⟩],
    proteins := [⟨"1.p1", "VOG1", 1⟩, ⟨"1.p2", "VOG1", 1⟩],
    aa_seqs := [] }

/-- Search for species {"A", "B"} in intersection mode. -/
def pC2 : VogParams := { emptyParams with species := some ["A", "B"], union := some false }

/-- Taxonomy where taxon 4 has the single descendant 5 and taxon 5 is a
leaf. -/
def descC3 : Int → Option (List Int) :=
  fun t => if t = 4 then some [5] else if t = 5 then some [] else none

/-- Store with one VOG whose protein belongs to the species with taxon id 5. -/
def dbC3 : DB :=
  { vogs := [vogRow "VOG1" 1 1],
    species := [⟨5, "A", false, "NCBI Refseq", 201⟩],
    proteins := [⟨"5.p1", "VOG1", 5⟩],
    aa_seqs := [] }

/-- Search for taxon ids {4, 5} with the union flag absent. -/
def pC3 : VogParams := { emptyParams with tax_id := some [4, 5] }

/-- Search for species {"A", "B"} (mode set by the claim's two runs). -/
def pC4 : VogParams := { emptyParams with species := some ["A", "B"] }

/-- Union-mode search with a single-element species set. -/
def pC5 : VogParams := { emptyParams with union := some true, species := some ["A"] }

/-- Search with an inverted protein-count range. -/
def pC6 : VogParams := { emptyParams with pmin := some 5, pmax := some 2 }

/-- Search with the non-negative range pair 0 ≤ 0 ≤ 5 on the species count. -/
def pC7 : VogParams := { emptyParams with smin := some 0, smax := some 5 }

/-- Taxonomy where taxon 1 is a known leaf and every other id is unknown. -/
def descC8 : Int → Option (List Int) := fun t => if t = 1 then some [] else none

/-- Intersection-mode search for taxon ids {1, 2}, of which 2 is unknown. -/
def pC8 : VogParams := { emptyParams with tax_id := some [1, 2] }

/-- Blob directory containing only the file for id "VOG1". -/
def storeC9 : String → Option String :=
  fun s => if s = "VOG1" then some "data1" else none

/-- Search parameters carrying exactly the four numeric range pairs. -/
def rangeOnlyParams (smn smx pmn pmx gn gx hn hx : Int) : VogParams :=
  { emptyParams with
    smin := some smn, smax := some smx, pmin := some pmn, pmax := some pmx,
    mingLCA := some gn, maxgLCA := some gx, mingGLCA := some hn, maxgGLCA := some hx }

/-! ### Membership lemmas for the membership-resolution queries -/

theorem mem_taxVogIds {db : DB} {ids : List Int} {vid : String} :
    vid ∈ taxVogIds db ids ↔
      ∃ pr ∈ db.proteins, pr.vog_id = vid ∧
        ∃ s ∈ db.species, s.taxon_id = pr.taxon_id ∧ s.taxon_id ∈ ids := by
  unfold taxVogIds taxMatchRows joinRows
  simp only [List.mem_dedup, List.mem_map, List.mem_filter, List.mem_flatMap,
    decide_eq_true_eq]
  constructor
  · rintro ⟨a, ⟨⟨pr, hpr, s, ⟨hs, htax⟩, heq⟩, hin⟩, hvid⟩
    subst heq
    exact ⟨pr, hpr, hvid, s, hs, htax, hin⟩
  · rintro ⟨pr, hpr, hvid, s, hs, htax, hin⟩
    exact ⟨(pr, s), ⟨⟨pr, hpr, s, ⟨hs, htax⟩, rfl⟩, hin⟩, hvid⟩

theorem taxVogIds_mono {db : DB} {ids ids' : List Int} {vid : String}
    (hsub : ∀ x ∈ ids, x ∈ ids') (h : vid ∈ taxVogIds db ids) :
    vid ∈ taxVogIds db ids' := by
  rcases mem_taxVogIds.mp h with ⟨pr, hpr, hvid, s, hs, htax, hin⟩
  exact mem_taxVogIds.mpr ⟨pr, hpr, hvid, s, hs, htax, hsub _ hin⟩

theorem mem_speciesUnionVogIds {db : DB} {names : List String} {vid : String} :
    vid ∈ speciesUnionVogIds db names ↔
      ∃ pr ∈ db.proteins, pr.vog_id = vid ∧
        ∃ s ∈ db.species, s.taxon_id = pr.taxon_id ∧ s.species_name ∈ names := by
  unfold speciesUnionVogIds speciesMatchRows joinRows
  simp only [List.mem_dedup, List.mem_map, List.mem_filter, List.mem_flatMap,
    decide_eq_true_eq]
  constructor
  · rintro ⟨a, ⟨⟨pr, hpr, s, ⟨hs, htax⟩, heq⟩, hin⟩, hvid⟩
    subst heq
    exact ⟨pr, hpr, hvid, s, hs, htax, hin⟩
  · rintro ⟨pr, hpr, hvid, s, hs, htax, hin⟩
    exact ⟨(pr, s), ⟨⟨pr, hpr, s, ⟨hs, htax⟩, rfl⟩, hin⟩, hvid⟩

theorem speciesInter_subset_union {db : DB} {names : List String} {vid : String}
    (h : vid ∈ speciesInterVogIds db names) : vid ∈ speciesUnionVogIds db names :=
  List.mem_of_mem_filter h

/-! ### Validation lemmas -/

theorem check_validity_some_some (mn mx : Int) :
    check_validity (some mn, some mx) =
      if mx < mn then some VogError.invalidRange
      else if mn < 0 ∨ mx < 0 then some VogError.invalidRange
      else none := rfl

theorem check_validity_cases (pr : Option Int × Option Int) :
    check_validity pr = none ∨ check_validity pr = some VogError.invalidRange := by
  rcases pr with ⟨mn, mx⟩
  cases mn with
  | none => left; rfl
  | some mn =>
    cases mx with
    | none => left; rfl
    | some mx =>
      rw [check_validity_some_some]
      split
      · right; rfl
      · split
        · right; rfl
        · left; rfl

theorem check_validity_lt {mn mx : Int} (h : mx < mn) :
    check_validity (some mn, some mx) = some VogError.invalidRange := by
  rw [check_validity_some_some, if_pos h]

theorem check_validity_none {mn mx : Int} (h0 : 0 ≤ mn) (h1 : mn ≤ mx) :
    check_validity (some mn, some mx) = none := by
  rw [check_validity_some_some, if_neg (by omega), if_neg (by omega)]

theorem firstErr_invalid {L : List (Option VogError)}
    (hall : ∀ o ∈ L, o = none ∨ o = some VogError.invalidRange)
    (hex : ∃ o ∈ L, o ≠ none) :
    firstErr L = some VogError.invalidRange := by
  induction L with
  | nil => rcases hex with ⟨o, ho, _⟩; cases ho
  | cons hd tl ih =>
    rcases hall hd (by simp) with h | h
    · subst h
      simp only [firstErr]
      apply ih
      · intro o ho; exact hall o (by simp [ho])
      · rcases hex with ⟨o, ho, hne⟩
        rcases List.mem_cons.mp ho with rfl | ho
        · exact absurd rfl hne
        · exact ⟨o, ho, hne⟩
    · subst h
      simp [firstErr]

theorem positivityCheck_none {L : List (Option Int)}
    (h : ∀ o ∈ L, ∀ n, o = some n → 1 ≤ n) :
    positivityCheck L = none := by
  induction L with
  | nil => rfl
  | cons hd tl ih =>
    cases hd with
    | none =>
      simp only [positivityCheck]
      exact ih (fun o ho n hn => h o (by simp [ho]) n hn)
    | some m =>
      have hm : 1 ≤ m := h (some m) (by simp) m rfl
      simp only [positivityCheck]
      rw [if_neg (by omega)]
      exact ih (fun o ho n hn => h o (by simp [ho]) n hn)

theorem get_vogs_of_validate_some {db : DB} {desc : Int → Option (List Int)}
    {p : VogParams} {e : VogError} (h : vogValidate p = some e) :
    get_vogs db desc p = ([], Except.error e) := by
  unfold get_vogs
  rw [h]

/-! ### Lemmas about the taxon-criterion loops -/

theorem expandAll_ok {desc : Int → Option (List Int)} {T : List Int}
    (h : ∀ t ∈ T, (desc t).isSome) (acc : List Int) :
    ∃ idl, expandAll desc T acc = Except.ok idl ∧
      (∀ x ∈ acc, x ∈ idl) ∧
      ∀ t ∈ T, ∀ ds, desc t = some ds → ∀ x ∈ ds ++ [t], x ∈ idl := by
  induction T generalizing acc with
  | nil => exact ⟨acc, rfl, fun x hx => hx, by simp⟩
  | cons hd tl ih =>
    rcases Option.isSome_iff_exists.mp (h hd (by simp)) with ⟨ds, hds⟩
    rcases ih (fun t ht => h t (by simp [ht])) (acc ++ ds ++ [hd]) with
      ⟨idl, heq, hacc, hrest⟩
    refine ⟨idl, ?_, ?_, ?_⟩
    · simp only [expandAll]; rw [hds]; exact heq
    · intro x hx; exact hacc x (by simp [hx])
    · intro t ht ds2 hds2 x hx
      rcases List.mem_cons.mp ht with rfl | ht
      · rw [hds] at hds2
        cases hds2
        apply hacc
        simp only [List.mem_append, List.mem_singleton] at hx ⊢
        tauto
      · exact hrest t ht ds2 hds2 x hx

theorem expandAll_error_of_unknown {desc : Int → Option (List Int)} {T : List Int}
    (h : ∃ t ∈ T, desc t = none) (acc : List Int) :
    ∃ t, expandAll desc T acc = Except.error t ∧ t ∈ T ∧ desc t = none := by
  induction T generalizing acc with
  | nil => rcases h with ⟨t, ht, _⟩; cases ht
  | cons hd tl ih =>
    cases hds : desc hd with
    | none =>
      refine ⟨hd, ?_, by simp, hds⟩
      simp only [expandAll]; rw [hds]
    | some ds =>
      have h2 : ∃ t ∈ tl, desc t = none := by
        rcases h with ⟨t, ht, hn⟩
        rcases List.mem_cons.mp ht with rfl | ht
        · rw [hds] at hn; cases hn
        · exact ⟨t, ht, hn⟩
      rcases ih h2 (acc ++ ds ++ [hd]) with ⟨t, heq, htl, hn⟩
      refine ⟨t, ?_, by simp [htl], hn⟩
      simp only [expandAll]; rw [hds]; exact heq

theorem taxInterLoop_ok_mem {db : DB} {desc : Int → Option (List Int)}
    {T : List Int} {evs evs1 : List QueryEvent} {fs fs1 : List (List String)}
    (h : taxInterLoop db desc T evs fs = (evs1, Except.ok fs1)) (vid : String) :
    (∀ g ∈ fs1, vid ∈ g) ↔
      ((∀ g ∈ fs, vid ∈ g) ∧
        ∀ t ∈ T, ∃ ds, desc t = some ds ∧ vid ∈ taxVogIds db (ds ++ [t])) := by
  induction T generalizing evs fs with
  | nil =>
    simp only [taxInterLoop] at h
    injection h with h1 h2
    injection h2 with h3
    subst h3
    simp
  | cons hd tl ih =>
    cases hds : desc hd with
    | none =>
      simp only [taxInterLoop] at h
      rw [hds] at h
      injection h with h1 h2
      cases h2
    | some ds =>
      simp only [taxInterLoop] at h
      rw [hds] at h
      rw [ih h]
      constructor
      · rintro ⟨hfs, htl⟩
        refine ⟨fun g hg => hfs g (by simp [hg]), ?_⟩
        intro t ht
        rcases List.mem_cons.mp ht with rfl | ht
        · exact ⟨ds, hds, hfs _ (by simp)⟩
        · exact htl t ht
      · rintro ⟨hfs, hall⟩
        refine ⟨?_, fun t ht => hall t (by simp [ht])⟩
        intro g hg
        rcases List.mem_append.mp hg with hg | hg
        · exact hfs g hg
        · rcases hall hd (by simp) with ⟨ds2, hds2, hmem⟩
          rw [hds] at hds2
          cases hds2
          rw [List.mem_singleton.mp hg]
          exact hmem

theorem taxInterLoop_ok_isSome {db : DB} {desc : Int → Option (List Int)}
    {T : List Int} {evs evs1 : List QueryEvent} {fs fs1 : List (List String)}
    (h : taxInterLoop db desc T evs fs = (evs1, Except.ok fs1)) :
    ∀ t ∈ T, (desc t).isSome := by
  induction T generalizing evs fs with
  | nil => simp
  | cons hd tl ih =>
    cases hds : desc hd with
    | none =>
      simp only [taxInterLoop] at h
      rw [hds] at h
      injection h with h1 h2
      cases h2
    | some ds =>
      simp only [taxInterLoop] at h
      rw [hds] at h
      intro t ht
      rcases List.mem_cons.mp ht with rfl | ht
      · simp [hds]
      · exact ih h t ht

theorem taxInterLoop_error_of_unknown {db : DB} {desc : Int → Option (List Int)}
    {T : List Int} (h : ∃ t ∈ T, desc t = none) (evs : List QueryEvent)
    (fs : List (List String)) :
    ∃ t evs1, taxInterLoop db desc T evs fs = (evs1, Except.error t) ∧ t ∈ T ∧
      desc t = none ∧
      ∀ e ∈ evs1, e ∈ evs ∨ ∃ idl, e = QueryEvent.taxonJoin idl := by
  induction T generalizing evs fs with
  | nil => rcases h with ⟨t, ht, _⟩; cases ht
  | cons hd tl ih =>
    cases hds : desc hd with
    | none =>
      refine ⟨hd, evs, ?_, by simp, hds, fun e he => Or.inl he⟩
      simp only [taxInterLoop]; rw [hds]
    | some ds =>
      have h2 : ∃ t ∈ tl, desc t = none := by
        rcases h with ⟨t, ht, hn⟩
        rcases List.mem_cons.mp ht with rfl | ht
        · rw [hds] at hn; cases hn
        · exact ⟨t, ht, hn⟩
      rcases ih h2 (evs ++ [QueryEvent.taxonJoin (ds ++ [hd])])
          (fs ++ [taxVogIds db (ds ++ [hd])]) with ⟨t, evs1, heq, htl, hn, hsh⟩
      refine ⟨t, evs1, ?_, by simp [htl], hn, ?_⟩
      · simp only [taxInterLoop]; rw [hds]; exact heq
      · intro e he
        rcases hsh e he with he2 | he2
        · rcases List.mem_append.mp he2 with h3 | h3
          · exact Or.inl h3
          · exact Or.inr ⟨_, List.mem_singleton.mp h3⟩
        · exact Or.inr he2

/-! ### Unfolding lemmas for `get_vogs` -/

theorem get_vogs_eq_ok {db : DB} {desc : Int → Option (List Int)} {p : VogParams}
    {tEvs : List QueryEvent} {fs : List (List String)}
    (hv : vogValidate p = none)
    (ht : taxResolve db desc p.union p.tax_id = (tEvs, Except.ok fs)) :
    get_vogs db desc p =
      ((match p.species with
        | none => []
        | some names => [QueryEvent.speciesJoin names]) ++ tEvs ++ [QueryEvent.finalQuery],
       Except.ok ((db.vogs.filter (fun v =>
         scalarFilters p v &&
         (match speciesResolve db p with
          | none => true
          | some ids => decide (v.id ∈ ids)) &&
         fs.all (fun g => decide (v.id ∈ g)))).map (fun v => v.id))) := by
  unfold get_vogs
  rw [hv, ht]

theorem get_vogs_eq_taxError {db : DB} {desc : Int → Option (List Int)}
    {p : VogParams} {tEvs : List QueryEvent} {t : Int}
    (hv : vogValidate p = none)
    (ht : taxResolve db desc p.union p.tax_id = (tEvs, Except.error t)) :
    get_vogs db desc p =
      ((match p.species with
        | none => []
        | some names => [QueryEvent.speciesJoin names]) ++ tEvs,
       Except.error (VogError.invalidTaxon t)) := by
  unfold get_vogs
  rw [hv, ht]

theorem mem_resultIds {l : List VOG_profile} {f : VOG_profile → Bool} {vid : String} :
    vid ∈ (l.filter f).map (fun v => v.id) ↔ ∃ v ∈ l, f v = true ∧ v.id = vid := by
  simp only [List.mem_map, List.mem_filter]
  constructor
  · rintro ⟨v, ⟨hv, hf⟩, hid⟩
    exact ⟨v, hv, hf, hid⟩
  · rintro ⟨v, hv, hf, hid⟩
    exact ⟨v, ⟨hv, hf⟩, hid⟩

/-! ### Inversion lemmas for validation and the batch fetches -/

theorem vogValidate_none_iff {p : VogParams} :
    vogValidate p = none ↔ rangeValidate p = none ∧ unionValidate p = none := by
  unfold vogValidate
  cases h : rangeValidate p <;> simp [h]

theorem get_vogs_error_cases {db : DB} {desc : Int → Option (List Int)}
    {p : VogParams} {e : VogError}
    (h : (get_vogs db desc p).2 = Except.error e) :
    vogValidate p = some e ∨ ∃ t, e = VogError.invalidTaxon t := by
  cases hv : vogValidate p with
  | some e2 =>
    rw [get_vogs_of_validate_some hv] at h
    simp only [Except.error.injEq] at h
    exact Or.inl (congrArg some h)
  | none =>
    rcases htr : taxResolve db desc p.union p.tax_id with ⟨tEvs, res⟩
    cases res with
    | ok fs =>
      rw [get_vogs_eq_ok hv htr] at h
      simp at h
    | error t =>
      rw [get_vogs_eq_taxError hv htr] at h
      simp only [Except.error.injEq] at h
      exact Or.inr ⟨t, h.symm⟩

theorem blobContent_error {store : String → Option String} {u : String}
    {e : FetchError} (h : blobContent store u = Except.error e) :
    store (upperStr u) = none ∧ e = FetchError.invalidId u := by
  unfold blobContent at h
  cases hs : store (upperStr u) with
  | none =>
    rw [hs] at h
    injection h with h1
    exact ⟨rfl, h1.symm⟩
  | some c =>
    rw [hs] at h
    cases h

theorem blobContent_of_none {store : String → Option String} {u : String}
    (h : store (upperStr u) = none) :
    blobContent store u = Except.error (FetchError.invalidId u) := by
  unfold blobContent
  rw [h]

theorem blobContent_of_isSome {store : String → Option String} {u : String}
    (h : (store (upperStr u)).isSome) :
    ∃ c, blobContent store u = Except.ok c := by
  rcases Option.isSome_iff_exists.mp h with ⟨c, hc⟩
  exact ⟨c, by unfold blobContent; rw [hc]⟩

theorem batchContents_ok {f : String → Except FetchError String} {l : List String}
    (h : ∀ u ∈ l, ∃ c, f u = Except.ok c) :
    ∃ rs, batchContents f l = Except.ok rs := by
  induction l with
  | nil => exact ⟨[], rfl⟩
  | cons hd tl ih =>
    rcases h hd (by simp) with ⟨c, hc⟩
    rcases ih (fun u hu => h u (by simp [hu])) with ⟨rs, hrs⟩
    refine ⟨c :: rs, ?_⟩
    simp only [batchContents]
    rw [hc, hrs]

theorem batchContents_error {f : String → Except FetchError String} {l : List String}
    (h : ∃ u ∈ l, ∃ e, f u = Except.error e) :
    ∃ u ∈ l, ∃ e, f u = Except.error e ∧ batchContents f l = Except.error e := by
  induction l with
  | nil => rcases h with ⟨u, hu, _⟩; cases hu
  | cons hd tl ih =>
    cases hf : f hd with
    | error e =>
      refine ⟨hd, by simp, e, hf, ?_⟩
      simp only [batchContents]
      rw [hf]
    | ok c =>
      have h2 : ∃ u ∈ tl, ∃ e, f u = Except.error e := by
        rcases h with ⟨u, hu, e, he⟩
        rcases List.mem_cons.mp hu with rfl | hu
        · rw [hf] at he; cases he
        · exact ⟨u, hu, e, he⟩
      rcases ih h2 with ⟨u, hu, e, he, hbatch⟩
      refine ⟨u, by simp [hu], e, he, ?_⟩
      simp only [batchContents]
      rw [hf, hbatch]

/-! ### Claim theorems -/

/-- C1: the claim says that with a species-name set present and the union
flag absent (None) the membership constraint is resolved in INTERSECTION
mode.  The code's `if union is False:` test makes the absent flag take the
UNION branch instead: on a store where the two modes differ (a VOG matching
only one of the two requested names), the search with `union = none` returns
the VOG (union semantics), while the same search with `union = some false`
resolves the criterion by intersection and returns nothing. -/
theorem C1_default_mode_is_union_not_intersection :
    pC1.union = none ∧
    (get_vogs dbC1 descNone pC1).2 = Except.ok ["VOG1"] ∧
    (get_vogs dbC1 descNone { pC1 with union := some false }).2 = Except.ok [] ∧
    speciesInterVogIds dbC1 ["A", "B"] = [] ∧
    speciesUnionVogIds dbC1 ["A", "B"] = ["VOG1"] :=
  ⟨rfl, rfl, rfl, rfl, rfl⟩

/-- C2: the claim says a VOG is returned in INTERSECTION mode iff every
distinct criterion item is matched (by substring) by some protein's species,
the `HAVING` clause counting distinct matched items.  The code counts plain
joined rows (`COUNT(species_name)` without `DISTINCT`) over an exact `IN`
match: with criterion {"A","B"} and a VOG whose two proteins both belong to
species "A", the row count 2 equals the criterion cardinality and the VOG is
returned, although item "B" is matched by no protein of the VOG. -/
theorem C2_having_counts_rows_not_distinct_items :
    (get_vogs dbC2 descNone pC2).2 = Except.ok ["VOG1"] ∧
    ¬ specIntersectionQualifies dbC2 ["A", "B"] "VOG1" :=
  ⟨rfl, by decide⟩

/-- C10: the nucleotide-sequence fetch is extensionally equal to the
amino-acid-sequence fetch: `find_protein_fna_by_id` runs the same `AA_seq`
query as `find_protein_faa_by_id`, and the `/vfetch/protein/fna` endpoint
behaves exactly like the `/vfetch/protein/faa` endpoint on every store state
and id list. -/
theorem C10_fna_equals_faa :
    ∀ (db : DB) (ids : Option (List String)),
      find_protein_fna_by_id db ids = find_protein_faa_by_id db ids ∧
      fetch_protein_fna db ids = fetch_protein_faa db ids :=
  fun _ _ => ⟨rfl, rfl⟩

theorem get_vogs_scalar_only {db : DB} {desc : Int → Option (List Int)}
    {p : VogParams} (hv : vogValidate p = none)
    (hsp : p.species = none) (htx : p.tax_id = none) :
    get_vogs db desc p = ([QueryEvent.finalQuery],
      Except.ok ((db.vogs.filter (fun v => scalarFilters p v)).map (fun v => v.id))) := by
  have htr : taxResolve db desc p.union p.tax_id = ([], Except.ok []) := by
    rw [htx]
    rfl
  have hres : speciesResolve db p = none := by
    unfold speciesResolve
    rw [hsp]
  rw [get_vogs_eq_ok hv htr, hsp, hres]
  simp [Bool.and_true]

/-- C6: for every search and every declared range pair with both bounds
present and max < min, `check_validity` raises before anything else runs:
the search returns the `InvalidRange` validation error with an empty query
trace, whichever of the four field pairs carries the inverted bounds. -/
theorem C6_inverted_range_fails (db : DB) (desc : Int → Option (List Int))
    (p : VogParams) (mn mx : Int)
    (hp : (p.smin, p.smax) = (some mn, some mx) ∨
      (p.pmin, p.pmax) = (some mn, some mx) ∨
      (p.mingLCA, p.maxgLCA) = (some mn, some mx) ∨
      (p.mingGLCA, p.maxgGLCA) = (some mn, some mx))
    (hlt : mx < mn) :
    get_vogs db desc p = ([], Except.error VogError.invalidRange) := by
  apply get_vogs_of_validate_some
  have hrange : rangeValidate p = some VogError.invalidRange := by
    unfold rangeValidate
    have hfe : firstErr [check_validity (p.smin, p.smax), check_validity (p.pmin, p.pmax),
        check_validity (p.mingLCA, p.maxgLCA), check_validity (p.mingGLCA, p.maxgGLCA)] =
        some VogError.invalidRange := by
      apply firstErr_invalid
      · intro o ho
        simp only [List.mem_cons, List.not_mem_nil, or_false] at ho
        rcases ho with rfl | rfl | rfl | rfl
        all_goals apply check_validity_cases
      · rcases hp with h | h | h | h
        · exact ⟨check_validity (p.smin, p.smax), by simp,
            by rw [h, check_validity_lt hlt]; simp⟩
        · exact ⟨check_validity (p.pmin, p.pmax), by simp,
            by rw [h, check_validity_lt hlt]; simp⟩
        · exact ⟨check_validity (p.mingLCA, p.maxgLCA), by simp,
            by rw [h, check_validity_lt hlt]; simp⟩
        · exact ⟨check_validity (p.mingGLCA, p.maxgGLCA), by simp,
            by rw [h, check_validity_lt hlt]; simp⟩
    rw [hfe]
  unfold vogValidate
  rw [hrange]

theorem C6_inverted_range_fails_witness :
    (pC6.pmin, pC6.pmax) = (some 5, some 2) ∧ (2 : Int) < 5 ∧
    get_vogs db0 descNone pC6 = ([], Except.error VogError.invalidRange) :=
  ⟨rfl, by decide,
    C6_inverted_range_fails db0 descNone pC6 5 2 (Or.inr (Or.inl rfl)) (by decide)⟩

/-- C5: when the union flag is set (True) and the numeric-range validation
passes, the union preconditions are enforced before any store query runs:
no species and no taxon set fails with the missing-target error, and a
supplied species or taxon set with fewer than 2 distinct members fails with
the insufficient-cardinality error, in every case with an empty query trace
(in particular for the empty criterion set). -/
theorem C5_union_preconditions (db : DB) (desc : Int → Option (List Int))
    (p : VogParams) (hu : p.union = some true) (hr : rangeValidate p = none) :
    (p.species = none → p.tax_id = none →
      get_vogs db desc p = ([], Except.error VogError.missingUnionTarget)) ∧
    (∀ S, p.species = some S → S.Nodup → S.length < 2 →
      get_vogs db desc p = ([], Except.error VogError.insufficientUnionCardinality)) ∧
    (∀ T, p.tax_id = some T → T.Nodup → T.length < 2 →
      get_vogs db desc p = ([], Except.error VogError.insufficientUnionCardinality)) := by
  refine ⟨?_, ?_, ?_⟩
  · intro hs ht
    apply get_vogs_of_validate_some
    unfold vogValidate
    rw [hr]
    unfold unionValidate
    rw [hu, hs, ht]
  · intro S hs hnd hlen
    apply get_vogs_of_validate_some
    unfold vogValidate
    rw [hr]
    unfold unionValidate
    rw [hu, hs]
    simp only [if_pos hlen]
  · intro T ht hnd hlen
    apply get_vogs_of_validate_some
    unfold vogValidate
    rw [hr]
    unfold unionValidate
    rw [hu, ht]
    cases hs : p.species with
    | none => simp only [if_pos hlen]
    | some S =>
      by_cases hS : S.length < 2
      · simp only [if_pos hS]
      · simp only [if_neg hS, if_pos hlen]

theorem C5_union_preconditions_witness :
    pC5.union = some true ∧ rangeValidate pC5 = none ∧ ["A"].Nodup ∧
    get_vogs db0 descNone pC5 = ([], Except.error VogError.insufficientUnionCardinality) :=
  ⟨rfl, rfl, by decide,
    (C5_union_preconditions db0 descNone pC5 rfl rfl).2.1 ["A"] rfl (by decide) (by decide)⟩

/-- C7 counterexample: a range pair with both bounds present, non-negative
and ordered (0 ≤ 0 ≤ 5 on the species count) is not accepted: the `< 1`
positivity loop rejects the bound 0, so the search fails instead of
compiling the claimed inclusive-range predicate. -/
theorem C7_zero_bound_rejected :
    (0 : Int) ≤ 0 ∧ (0 : Int) ≤ 5 ∧
    get_vogs db0 descNone pC7 = ([], Except.error (VogError.nonPositive 0)) :=
  ⟨le_refl 0, by decide, rfl⟩

/-- C7 amended: for range pairs with 1 ≤ min ≤ max (strictly positive
bounds), the search accepts the pairs and the compiled `count > min-1 AND
count < max+1` predicates match exactly the records with min ≤ field ≤ max,
for all four field pairs simultaneously. -/
theorem C7_positive_ranges_inclusive (db : DB) (desc : Int → Option (List Int))
    (smn smx pmn pmx gn gx hn hx : Int)
    (h1 : 1 ≤ smn) (h2 : smn ≤ smx) (h3 : 1 ≤ pmn) (h4 : pmn ≤ pmx)
    (h5 : 1 ≤ gn) (h6 : gn ≤ gx) (h7 : 1 ≤ hn) (h8 : hn ≤ hx) :
    ∃ r, get_vogs db desc (rangeOnlyParams smn smx pmn pmx gn gx hn hx) =
      ([QueryEvent.finalQuery], Except.ok r) ∧
      ∀ vid, vid ∈ r ↔ ∃ v ∈ db.vogs, v.id = vid ∧
        (smn ≤ v.species_count ∧ v.species_count ≤ smx) ∧
        (pmn ≤ v.protein_count ∧ v.protein_count ≤ pmx) ∧
        (gn ≤ v.genomes_total_in_LCA ∧ v.genomes_total_in_LCA ≤ gx) ∧
        (hn ≤ v.genomes_in_group ∧ v.genomes_in_group ≤ hx) := by
  have hv : vogValidate (rangeOnlyParams smn smx pmn pmx gn gx hn hx) = none := by
    unfold vogValidate rangeValidate unionValidate rangeOnlyParams emptyParams
    dsimp only
    rw [check_validity_none (by omega) h2, check_validity_none (by omega) h4,
      check_validity_none (by omega) h6, check_validity_none (by omega) h8]
    dsimp only [firstErr]
    have epos : positivityCheck [some smn, some smx, some pmn, some pmx,
        some gn, some gx, some hn, some hx] = none := by
      apply positivityCheck_none
      intro o ho n hn2
      simp only [List.mem_cons, List.not_mem_nil, or_false] at ho
      rcases ho with rfl | rfl | rfl | rfl | rfl | rfl | rfl | rfl <;>
        (injection hn2 with h9; omega)
    rw [epos]
  refine ⟨_, get_vogs_scalar_only hv rfl rfl, ?_⟩
  intro vid
  rw [mem_resultIds]
  constructor
  · rintro ⟨v, hv2, hf, hid⟩
    refine ⟨v, hv2, hid, ?_⟩
    simp only [scalarFilters, rangeOnlyParams, emptyParams, Bool.and_eq_true,
      decide_eq_true_eq] at hf
    omega
  · rintro ⟨v, hv2, hid, hineq⟩
    refine ⟨v, hv2, ?_, hid⟩
    simp [scalarFilters, rangeOnlyParams, emptyParams]
    omega

theorem C7_positive_ranges_inclusive_witness :
    (1 : Int) ≤ 1 ∧ (1 : Int) ≤ 2 ∧
    ∃ r, get_vogs db0 descNone (rangeOnlyParams 1 2 1 2 1 2 1 2) =
      ([QueryEvent.finalQuery], Except.ok r) ∧
      ∀ vid, vid ∈ r ↔ ∃ v ∈ db0.vogs, v.id = vid ∧
        ((1 : Int) ≤ v.species_count ∧ v.species_count ≤ 2) ∧
        ((1 : Int) ≤ v.protein_count ∧ v.protein_count ≤ 2) ∧
        ((1 : Int) ≤ v.genomes_total_in_LCA ∧ v.genomes_total_in_LCA ≤ 2) ∧
        ((1 : Int) ≤ v.genomes_in_group ∧ v.genomes_in_group ≤ 2) :=
  ⟨by decide, by decide,
    C7_positive_ranges_inclusive db0 descNone 1 2 1 2 1 2 1 2
      (by decide) (by decide) (by decide) (by decide)
      (by decide) (by decide) (by decide) (by decide)⟩

/-- C3: with a taxon-id set in intersection mode (union flag falsy), every
requested taxon id is expanded to its descendants plus itself and contributes
its own `IN`-filter: a returned VOG has, for every original requested taxon
id, at least one protein whose species lies in that id's expansion, and for a
search carrying only the taxon criterion the result is exactly the
intersection of the per-taxon-id VOG sets. -/
theorem C3_taxon_intersection (db : DB) (desc : Int → Option (List Int))
    (p : VogParams) (T : List Int) (r : List String)
    (hT : p.tax_id = some T) (hu : unionTruthy p.union = false)
    (hr : (get_vogs db desc p).2 = Except.ok r) :
    (∀ vid ∈ r, ∀ t ∈ T, ∃ ds, desc t = some ds ∧
      ∃ pr ∈ db.proteins, pr.vog_id = vid ∧
        ∃ s ∈ db.species, s.taxon_id = pr.taxon_id ∧ s.taxon_id ∈ ds ++ [t]) ∧
    (p = { emptyParams with tax_id := some T } →
      ∀ vid, vid ∈ r ↔ (∃ v ∈ db.vogs, v.id = vid) ∧
        ∀ t ∈ T, ∃ ds, desc t = some ds ∧ vid ∈ taxVogIds db (ds ++ [t])) := by
  cases hv : vogValidate p with
  | some e =>
    rw [get_vogs_of_validate_some hv] at hr
    simp at hr
  | none =>
    have htr0 : taxResolve db desc p.union p.tax_id = taxInterLoop db desc T [] [] := by
      rw [hT]
      unfold taxResolve
      rw [hu]
      simp
    rcases hloop : taxInterLoop db desc T [] [] with ⟨tEvs, res⟩
    cases res with
    | error t =>
      rw [get_vogs_eq_taxError hv (htr0.trans hloop)] at hr
      simp at hr
    | ok fs =>
      have heq := get_vogs_eq_ok hv (htr0.trans hloop)
      rw [heq] at hr
      simp only [Except.ok.injEq] at hr
      subst hr
      constructor
      · intro vid hvid t ht
        rcases mem_resultIds.mp hvid with ⟨v, hvv, hfv, hvidEq⟩
        simp only [Bool.and_eq_true] at hfv
        have h3 := hfv.2
        rw [List.all_eq_true] at h3
        have hall : ∀ g ∈ fs, v.id ∈ g := by
          intro g hg
          exact decide_eq_true_eq.mp (h3 g hg)
        have hper := ((taxInterLoop_ok_mem hloop v.id).mp hall).2
        rcases hper t ht with ⟨ds, hds, hmem⟩
        rcases mem_taxVogIds.mp hmem with ⟨pr, hpr, hprvog, s, hss, hstax, hin⟩
        exact ⟨ds, hds, pr, hpr, by rw [hprvog, hvidEq], s, hss, hstax, hin⟩
      · intro hp vid
        subst hp
        rw [mem_resultIds]
        constructor
        · rintro ⟨v, hvv, hfv, hvid⟩
          simp only [Bool.and_eq_true] at hfv
          have h3 := hfv.2
          rw [List.all_eq_true] at h3
          have hall : ∀ g ∈ fs, vid ∈ g := by
            intro g hg
            have h4 := decide_eq_true_eq.mp (h3 g hg)
            rwa [hvid] at h4
          exact ⟨⟨v, hvv, hvid⟩, ((taxInterLoop_ok_mem hloop vid).mp hall).2⟩
        · rintro ⟨⟨v, hvv, hvid⟩, hper⟩
          refine ⟨v, hvv, ?_, hvid⟩
          have hall : ∀ g ∈ fs, vid ∈ g :=
            (taxInterLoop_ok_mem hloop vid).mpr ⟨by simp, hper⟩
          simp only [Bool.and_eq_true]
          refine ⟨⟨rfl, rfl⟩, ?_⟩
          rw [List.all_eq_true]
          intro g hg
          exact decide_eq_true (by rw [hvid]; exact hall g hg)

theorem C3_taxon_intersection_witness :
    (∀ vid ∈ ["VOG1"], ∀ t ∈ [(4 : Int), 5], ∃ ds, descC3 t = some ds ∧
      ∃ pr ∈ dbC3.proteins, pr.vog_id = vid ∧
        ∃ s ∈ dbC3.species, s.taxon_id = pr.taxon_id ∧ s.taxon_id ∈ ds ++ [t]) ∧
    (pC3 = { emptyParams with tax_id := some [4, 5] } →
      ∀ vid, vid ∈ ["VOG1"] ↔ (∃ v ∈ dbC3.vogs, v.id = vid) ∧
        ∀ t ∈ [(4 : Int), 5], ∃ ds, descC3 t = some ds ∧
          vid ∈ taxVogIds dbC3 (ds ++ [t])) :=
  C3_taxon_intersection dbC3 descC3 pC3 [4, 5] ["VOG1"] rfl rfl rfl

/-- C4: over the same criterion sets (each with at least 2 elements) and
otherwise identical parameters, the UNION-mode search succeeds whenever the
INTERSECTION-mode search does, and returns a superset of its VOG ids: the
intersection-mode `HAVING`-filtered species groups are a subset of the union
groups, and a VOG passing every per-taxon filter passes the single combined
union filter. -/
theorem C4_union_superset (db : DB) (desc : Int → Option (List Int))
    (p : VogParams) (ri : List String)
    (hs : p.species = none ∨ ∃ S, p.species = some S ∧ 2 ≤ S.length)
    (ht : p.tax_id = none ∨ ∃ T, p.tax_id = some T ∧ 2 ≤ T.length)
    (hone : ¬ (p.species = none ∧ p.tax_id = none))
    (hi : (get_vogs db desc { p with union := some false }).2 = Except.ok ri) :
    ∃ ru, (get_vogs db desc { p with union := some true }).2 = Except.ok ru ∧
      ∀ vid ∈ ri, vid ∈ ru := by
  cases hvI : vogValidate { p with union := some false } with
  | some e =>
    rw [get_vogs_of_validate_some hvI] at hi
    simp at hi
  | none =>
    have hrU : rangeValidate { p with union := some true } = none :=
      (vogValidate_none_iff.mp hvI).1
    have huU : unionValidate { p with union := some true } = none := by
      unfold unionValidate
      dsimp only
      rcases hs with hs0 | ⟨S, hsS, hSlen⟩
      · rcases ht with ht0 | ⟨T, htT, hTlen⟩
        · exact absurd ⟨hs0, ht0⟩ hone
        · rw [hs0, htT]
          show (if T.length < 2 then some VogError.insufficientUnionCardinality
            else none) = none
          rw [if_neg (by omega)]
      · rw [hsS]
        show (if S.length < 2 then some VogError.insufficientUnionCardinality
          else match p.tax_id with
            | some l =>
              if l.length < 2 then some VogError.insufficientUnionCardinality
              else none
            | none => none) = none
        rw [if_neg (by omega)]
        rcases ht with ht0 | ⟨T, htT, hTlen⟩
        · rw [ht0]
        · rw [htT]
          show (if T.length < 2 then some VogError.insufficientUnionCardinality
            else none) = none
          rw [if_neg (by omega)]
    have hvU : vogValidate { p with union := some true } = none :=
      vogValidate_none_iff.mpr ⟨hrU, huU⟩
    have hspTransfer : ∀ v : VOG_profile,
        (match speciesResolve db { p with union := some false } with
          | none => true
          | some ids => decide (v.id ∈ ids)) = true →
        (match speciesResolve db { p with union := some true } with
          | none => true
          | some ids => decide (v.id ∈ ids)) = true := by
      intro v hmatch
      rcases hs with hs0 | ⟨S, hsS, hSlen⟩
      · have : speciesResolve db { p with union := some true } = none := by
          unfold speciesResolve
          dsimp only
          rw [hs0]
        rw [this]
      · have hresI : speciesResolve db { p with union := some false } =
            some (speciesInterVogIds db S) := by
          unfold speciesResolve
          dsimp only
          rw [hsS]
        have hresU : speciesResolve db { p with union := some true } =
            some (speciesUnionVogIds db S) := by
          unfold speciesResolve
          dsimp only
          rw [hsS]
        rw [hresI] at hmatch
        rw [hresU]
        exact decide_eq_true
          (speciesInter_subset_union (decide_eq_true_eq.mp hmatch))
    rcases ht with htax | ⟨T, htax, hTlen⟩
    · -- no taxon criterion
      have htrI : taxResolve db desc (some false) p.tax_id = ([], Except.ok []) := by
        rw [htax]; rfl
      have htrU : taxResolve db desc (some true) p.tax_id = ([], Except.ok []) := by
        rw [htax]; rfl
      rw [get_vogs_eq_ok hvI htrI] at hi
      simp only [Except.ok.injEq] at hi
      refine ⟨_, congrArg Prod.snd (get_vogs_eq_ok hvU htrU), ?_⟩
      intro vid hvid
      rw [← hi] at hvid
      rcases mem_resultIds.mp hvid with ⟨v, hvv, hfv, hvidEq⟩
      apply mem_resultIds.mpr
      refine ⟨v, hvv, ?_, hvidEq⟩
      simp only [Bool.and_eq_true] at hfv ⊢
      exact ⟨⟨hfv.1.1, hspTransfer v hfv.1.2⟩, hfv.2⟩
    · -- taxon criterion present
      have htrI : taxResolve db desc (some false) p.tax_id =
          taxInterLoop db desc T [] [] := by
        rw [htax]; rfl
      rcases hloop : taxInterLoop db desc T [] [] with ⟨evsI, resI⟩
      cases resI with
      | error t =>
        rw [get_vogs_eq_taxError hvI (htrI.trans hloop)] at hi
        simp at hi
      | ok fsI =>
        have hsome : ∀ t ∈ T, (desc t).isSome := taxInterLoop_ok_isSome hloop
        rcases expandAll_ok hsome [] with ⟨idl, hexp, _, hcover⟩
        have htrU : taxResolve db desc (some true) p.tax_id =
            ([QueryEvent.taxonJoin idl], Except.ok [taxVogIds db idl]) := by
          rw [htax]
          unfold taxResolve
          dsimp only [unionTruthy]
          rw [if_pos rfl, hexp]
        rw [get_vogs_eq_ok hvI (htrI.trans hloop)] at hi
        simp only [Except.ok.injEq] at hi
        refine ⟨_, congrArg Prod.snd (get_vogs_eq_ok hvU htrU), ?_⟩
        intro vid hvid
        rw [← hi] at hvid
        rcases mem_resultIds.mp hvid with ⟨v, hvv, hfv, hvidEq⟩
        apply mem_resultIds.mpr
        refine ⟨v, hvv, ?_, hvidEq⟩
        simp only [Bool.and_eq_true] at hfv ⊢
        refine ⟨⟨hfv.1.1, hspTransfer v hfv.1.2⟩, ?_⟩
        have hallI : ∀ g ∈ fsI, v.id ∈ g := by
          have h3 := hfv.2
          rw [List.all_eq_true] at h3
          intro g hg
          exact decide_eq_true_eq.mp (h3 g hg)
        have hper := ((taxInterLoop_ok_mem hloop v.id).mp hallI).2
        have hT0 : ∃ t0, t0 ∈ T := by
          cases T with
          | nil => simp at hTlen
          | cons a l => exact ⟨a, by simp⟩
        rcases hT0 with ⟨t0, ht0⟩
        rcases hper t0 ht0 with ⟨ds, hds, hmem⟩
        have hsub : ∀ x ∈ ds ++ [t0], x ∈ idl := hcover t0 ht0 ds hds
        have hv2 : v.id ∈ taxVogIds db idl := taxVogIds_mono hsub hmem
        rw [List.all_eq_true]
        intro g hg
        rw [List.mem_singleton.mp hg]
        exact decide_eq_true hv2

theorem C4_union_superset_witness :
    ∃ ru, (get_vogs dbC2 descNone { pC4 with union := some true }).2 = Except.ok ru ∧
      ∀ vid ∈ ["VOG1"], vid ∈ ru :=
  C4_union_superset dbC2 descNone pC4 ["VOG1"]
    (Or.inr ⟨["A", "B"], rfl, by decide⟩) (Or.inl rfl) (by decide) rfl

/-- C8 counterexample: in intersection mode with taxon set {1, 2}, where 1 is
known and 2 is unknown, the membership join for taxon 1 runs before the
expansion of taxon 2 raises: the search fails with `InvalidTaxon 2` but the
query trace already contains a membership join, refuting "no membership join
has been run first". -/
theorem C8_join_runs_before_invalid_taxon :
    get_vogs db0 descC8 pC8 =
      ([QueryEvent.taxonJoin [1]], Except.error (VogError.invalidTaxon 2)) ∧
    ([QueryEvent.taxonJoin [1]] : List QueryEvent) ≠ [] :=
  ⟨rfl, by decide⟩

/-- C8 amended: the pure validation failures (invalid range, non-positive
bound, missing union target, insufficient union cardinality) are raised with
an empty query trace, i.e. before any store query; an unknown taxon id still
fails the whole search with `InvalidTaxon` naming an offending requested id
and the final query never runs, but membership joins issued earlier in the
same request (for the species criterion, or for preceding taxon ids in
intersection mode) may already have executed. -/
theorem C8_validation_before_joins (db : DB) (desc : Int → Option (List Int))
    (p : VogParams) :
    (∀ e, (get_vogs db desc p).2 = Except.error e →
      (∀ t, e ≠ VogError.invalidTaxon t) →
      get_vogs db desc p = ([], Except.error e)) ∧
    (∀ T, vogValidate p = none → p.tax_id = some T →
      (∃ t ∈ T, desc t = none) →
      ∃ t ∈ T, desc t = none ∧
        (get_vogs db desc p).2 = Except.error (VogError.invalidTaxon t) ∧
        QueryEvent.finalQuery ∉ (get_vogs db desc p).1) := by
  constructor
  · intro e herr hne
    rcases get_vogs_error_cases herr with hv | ⟨t, rfl⟩
    · exact get_vogs_of_validate_some hv
    · exact absurd rfl (hne t)
  · intro T hv hT hex
    by_cases hu : unionTruthy p.union = true
    · rcases expandAll_error_of_unknown hex [] with ⟨t, hexp, htT, hnone⟩
      have htr : taxResolve db desc p.union p.tax_id = ([], Except.error t) := by
        rw [hT]
        unfold taxResolve
        rw [hu]
        simp [hexp]
      refine ⟨t, htT, hnone, ?_, ?_⟩
      · rw [get_vogs_eq_taxError hv htr]
      · rw [get_vogs_eq_taxError hv htr]
        cases p.species <;> simp
    · have hu2 : unionTruthy p.union = false := by
        cases h : unionTruthy p.union
        · rfl
        · exact absurd h hu
      rcases taxInterLoop_error_of_unknown hex [] [] with
        ⟨t, evs1, hloopeq, htT, hnone, hsh⟩
      have htr : taxResolve db desc p.union p.tax_id = (evs1, Except.error t) := by
        rw [hT]
        unfold taxResolve
        rw [hu2]
        simpa using hloopeq
      refine ⟨t, htT, hnone, ?_, ?_⟩
      · rw [get_vogs_eq_taxError hv htr]
      · rw [get_vogs_eq_taxError hv htr]
        intro hmem
        simp only [List.mem_append] at hmem
        rcases hmem with h1 | h1
        · revert h1
          cases p.species <;> simp
        · rcases hsh _ h1 with h2 | h2
          · simp at h2
          · rcases h2 with ⟨idl, h3⟩
            cases h3

theorem C8_validation_before_joins_witness :
    ∃ t ∈ [(1 : Int), 2], descC8 t = none ∧
      (get_vogs db0 descC8 pC8).2 = Except.error (VogError.invalidTaxon t) ∧
      QueryEvent.finalQuery ∉ (get_vogs db0 descC8 pC8).1 :=
  (C8_validation_before_joins db0 descC8 pC8).2 [1, 2] rfl rfl ⟨2, by decide, by decide⟩

/-- C9 counterexample: a batch HMM (and MSA) fetch for {"vog1", "vog2"}
against a store holding only "VOG1" aborts with the per-id `Invalid Id`
error for "vog2" instead of returning a partial result covering "vog1",
whose blob does exist. -/
theorem C9_batch_aborts_on_missing_id :
    find_vogs_hmm_by_uid storeC9 (some ["vog1", "vog2"]) =
      Except.error (FetchError.invalidId "vog2") ∧
    find_vogs_msa_by_uid storeC9 (some ["vog1", "vog2"]) =
      Except.error (FetchError.invalidId "vog2") ∧
    storeC9 (upperStr "vog1") = some "data1" :=
  ⟨rfl, rfl, rfl⟩

/-- C9 amended: each id of a non-empty batch is looked up independently
against the blob store, but the lookups are not fault-isolated: the batch
returns a full result exactly when every requested id's blob exists, and a
single missing blob makes the whole HMM (or MSA) fetch fail with the
`Invalid Id` error of a missing id — no partial result is returned. -/
theorem C9_per_id_error_aborts_batch (hstore mstore : String → Option String)
    (uids : List String) (hne : uids ≠ []) :
    ((∃ u ∈ uids, hstore (upperStr u) = none) →
      ∃ u ∈ uids, hstore (upperStr u) = none ∧
        find_vogs_hmm_by_uid hstore (some uids) =
          Except.error (FetchError.invalidId u)) ∧
    ((∀ u ∈ uids, (hstore (upperStr u)).isSome) →
      ∃ rs, find_vogs_hmm_by_uid hstore (some uids) = Except.ok rs) ∧
    ((∃ u ∈ uids, mstore (upperStr u) = none) →
      ∃ u ∈ uids, mstore (upperStr u) = none ∧
        find_vogs_msa_by_uid mstore (some uids) =
          Except.error (FetchError.invalidId u)) ∧
    ((∀ u ∈ uids, (mstore (upperStr u)).isSome) →
      ∃ rs, find_vogs_msa_by_uid mstore (some uids) = Except.ok rs) := by
  have hempty : uids.isEmpty = false := by
    cases uids with
    | nil => exact absurd rfl hne
    | cons a l => rfl
  have hfindH : find_vogs_hmm_by_uid hstore (some uids) =
      batchContents (blobContent hstore) uids.dedup := by
    unfold find_vogs_hmm_by_uid
    simp [hempty]
  have hfindM : find_vogs_msa_by_uid mstore (some uids) =
      batchContents (blobContent mstore) uids.dedup := by
    unfold find_vogs_msa_by_uid
    simp [hempty]
  refine ⟨?_, ?_, ?_, ?_⟩
  · rintro ⟨u, hu, hnone⟩
    rcases batchContents_error
        ⟨u, List.mem_dedup.mpr hu, FetchError.invalidId u,
          blobContent_of_none hnone⟩ with ⟨u2, hu2, e, he, hbatch⟩
    rcases blobContent_error he with ⟨hn2, rfl⟩
    exact ⟨u2, List.mem_dedup.mp hu2, hn2, by rw [hfindH]; exact hbatch⟩
  · intro hall
    rcases batchContents_ok
        (fun u hu => blobContent_of_isSome (hall u (List.mem_dedup.mp hu))) with
      ⟨rs, hrs⟩
    exact ⟨rs, by rw [hfindH]; exact hrs⟩
  · rintro ⟨u, hu, hnone⟩
    rcases batchContents_error
        ⟨u, List.mem_dedup.mpr hu, FetchError.invalidId u,
          blobContent_of_none hnone⟩ with ⟨u2, hu2, e, he, hbatch⟩
    rcases blobContent_error he with ⟨hn2, rfl⟩
    exact ⟨u2, List.mem_dedup.mp hu2, hn2, by rw [hfindM]; exact hbatch⟩
  · intro hall
    rcases batchContents_ok
        (fun u hu => blobContent_of_isSome (hall u (List.mem_dedup.mp hu))) with
      ⟨rs, hrs⟩
    exact ⟨rs, by rw [hfindM]; exact hrs⟩

theorem C9_per_id_error_aborts_batch_witness :
    ∃ u ∈ ["vog1", "vog2"], storeC9 (upperStr u) = none ∧
      find_vogs_hmm_by_uid storeC9 (some ["vog1", "vog2"]) =
        Except.error (FetchError.invalidId u) :=
  (C9_per_id_error_aborts_batch storeC9 storeC9 ["vog1", "vog2"] (by decide)).1
    ⟨"vog2", by decide, by decide⟩
